import Mathlib

/-
Verification of the tool-sandbox TypeScript library (src/index.ts, src/types.ts).

This file gives a shallow embedding, in Lean 4, of the pure logic of the
sandbox host: JSON values crossing the host/guest boundary, the tool
registry and its duplicate-name validation, the execute-tool description
template, blob-id generation and the blob extractor, the per-execution
store protocol (`_prev` injection and stripping), the tool-call event
pipeline (before/success/error callbacks with recovery), and the outcome
classification of one `executeCode` run.  Host-async behaviour that the
claims depend on only through its settled outcome (guest evaluation,
polling, timeouts) is represented by an explicit outcome value fed to the
embedded `executeCode`; everything downstream of that outcome is
translated line by line from the source.
-/

/-- A JSON value, the shape of every piece of data that crosses the
host/guest boundary (tool arguments, tool results, the store, blobs). -/
inductive Json where
  | null
  | bool (b : Bool)
  | num (n : Int)
  | str (s : String)
  | arr (elems : List Json)
  | obj (fields : List (String × Json))

/-- A JavaScript value as dumped across the boundary: either `undefined`
or a JSON value.  (`vm.dump` of a guest value, or a host handler result.) -/
inductive JsVal where
  | undef
  | val (j : Json)

/-- Lower-case hex digit, used for JSON control-character escapes. -/
def hexDigitChar (n : Nat) : Char :=
  if n < 10 then Char.ofNat (48 + n) else Char.ofNat (87 + n)

/-- How `JSON.stringify` escapes a single character inside a string. -/
def escapeJsonChar (c : Char) : String :=
  if c = '"' then "\\\""
  else if c = '\\' then "\\\\"
  else if c = '\x08' then "\\b"
  else if c = '\x0c' then "\\f"
  else if c = '\n' then "\\n"
  else if c = '\r' then "\\r"
  else if c = '\t' then "\\t"
  else if c.toNat < 32 then
    "\\u00" ++ String.singleton (hexDigitChar (c.toNat / 16)) ++ String.singleton (hexDigitChar (c.toNat % 16))
  else String.singleton c

/-- `JSON.stringify` of a string value. -/
def serializeString (s : String) : String :=
  "\"" ++ String.join (s.toList.map escapeJsonChar) ++ "\""

mutual

/-- `JSON.stringify` of a JSON value (no spacing argument, as used by the
sandbox host).  Keys of objects are emitted in insertion order. -/
def serialize : Json → String
  | .null => "null"
  | .bool true => "true"
  | .bool false => "false"
  | .num n => toString n
  | .str s => serializeString s
  | .arr xs => "[" ++ String.intercalate "," (serializeList xs) ++ "]"
  | .obj fs => "\x7b" ++ String.intercalate "," (serializeFields fs) ++ "\x7d"

/-- Serialize each element of a JSON array. -/
def serializeList : List Json → List String
  | [] => []
  | x :: xs => serialize x :: serializeList xs

/-- Serialize each `key:value` member of a JSON object. -/
def serializeFields : List (String × Json) → List String
  | [] => []
  | (k, v) :: fs => (serializeString k ++ ":" ++ serialize v) :: serializeFields fs

end

/-- `JSON.stringify` of a possibly-`undefined` value: `undefined` has no
JSON text (`JSON.stringify(undefined)` is `undefined`, modelled as `none`). -/
def serializeJs : JsVal → Option String
  | .undef => none
  | .val j => some (serialize j)

/-- A blob record `{id, data, mimeType}` held in the per-execution blob table. -/
structure Blob where
  id : String
  data : String
  mimeType : String
deriving Repr, DecidableEq

/-- First-match lookup in a JSON object's field list (JS property read). -/
def getField (fields : List (String × Json)) (k : String) : Option Json :=
  (fields.find? (fun p => p.1 = k)).map (fun p => p.2)

/-- Lookup in the blob table (`Map.get`). -/
def lookupBlob (table : List (String × Blob)) (id : String) : Option Blob :=
  (table.find? (fun p => p.1 = id)).map (fun p => p.2)

/-- `Map.set` semantics of the blob table: overwrite in place when the key
exists (keeping insertion order), append otherwise. -/
def mapSet (table : List (String × Blob)) (id : String) (b : Blob) : List (String × Blob) :=
  if table.any (fun p => p.1 = id) then
    table.map (fun p => if p.1 = id then (id, b) else p)
  else table ++ [(id, b)]

/-- The alphabet `'abcdefghijklmnopqrstuvwxyz0123456789'` that
`generateBlobId` draws its six suffix characters from. -/
def blobChars : List Char :=
  "abcdefghijklmnopqrstuvwxyz0123456789".toList

/-- `generateBlobId`: `'blob_'` followed by six characters drawn from
`blobChars`.  The stream `rand` models the successive values of
`Math.floor(Math.random() * chars.length)`; `k` is the index of the next
unconsumed draw.  There is no collision check in the source. -/
def generateBlobId (rand : Nat → Fin 36) (k : Nat) : String :=
  "blob_" ++ String.mk ((List.range 6).map (fun i =>
    blobChars.getD (rand (k + i)).val 'a'))

/-- Does `s` contain `sub` as a substring?  Models JS `String.prototype.includes`
for the non-empty patterns the source uses. -/
def containsSub (s sub : String) : Bool :=
  (s.splitOn sub).length != 1

/-- `augmentErrorMessage`: appends a hint when the guest tried to use
`setTimeout`/`setInterval`, otherwise returns the message unchanged. -/
def augmentErrorMessage (errorStr : String) : String :=
  if containsSub errorStr "'setTimeout' is not defined"
      || containsSub errorStr "'setInterval' is not defined" then
    errorStr ++ ". Hint: Use await tool('sleep', \x7bms: N\x7d) for delays."
  else errorStr

/-- Text of the `generateExecuteDescription` template before the
`toolNames.join(', ')` interpolation. -/
def executeDescHead : String :=
  "Run JavaScript in a sandboxed environment.\n\nAvailable: tool(name, args), store (persistent), store._prev (last result), atob/btoa, and standard JS built-ins (JSON, Math, Date, Promise, etc.). No logs are captured — use return to pass data back.\n\nBinary data (images, audio, PDFs) from tools is automatically extracted. Tool results containing these will have the data replaced with refs like \x7btype: 'blob_ref', id: 'blob_k7m2x9', mimeType: 'image/png'\x7d. The actual content is returned separately. If you need the raw base64 data (e.g., to crop, resize, or pass to another tool), use tool('get_blob', \x7bid\x7d) which returns \x7bid, data, mimeType\x7d. Note: blobs are only available within the same execution - save to store if needed later.\n\nIMPORTANT: Call tool('describe_tool', \x7bname\x7d) to get a tool's schema before using it. Do not guess schemas.\n\nAvailable tools: "

/-- Text of the `generateExecuteDescription` template after the
`toolNames.join(', ')` interpolation. -/
def executeDescTail : String :=
  "\n\nExample (placeholder tool names - use describe_tool for actual schemas):\n\nUSER: What's on my on-call calendars in the next 24 hours?\n\n// Execution 1: Get schema first\nreturn await tool('describe_tool', \x7bname: 'calendar__list'\x7d);\n\n// Execution 2: Fetch calendars, filter, get events, store and return count\nconst calendars = await tool('calendar__list', \x7b\x7d);\nconst eventArrays = await Promise.all(calendars.map(cal =>\n  tool('calendar__events', \x7bcalendarId: cal.id, timeMin: new Date().toISOString(), timeMax: new Date(Date.now() + 86400000).toISOString()\x7d)\n));\nstore.events = eventArrays.flat();\nreturn \x7bcount: store.events.length\x7d;\n\nUSER: Which of those are standups?\n\n// Execution 3: Work with stored events, return summary\nconst standups = store.events.filter(e => e.title.includes('standup'));\nreturn \x7bcount: standups.length, titles: standups.map(e => e.title)\x7d;\n\nUSER: Any of those for tool-sandbox?\n\n// Execution 4: Filter previous result\nreturn store._prev.titles.filter(t => t.includes('tool-sandbox'));\n\nStyle: Keep code short and simple. No comments or error handling needed. Return summaries rather than large objects.\n\nLimitations: No fetch/require/import/setTimeout/setInterval (use tools instead)."

/-- `generateExecuteDescription(toolNames)`: the template with
`toolNames.join(', ')` interpolated (names in the order given, unsorted). -/
def generateExecuteDescription (toolNames : List String) : String :=
  executeDescHead ++ String.intercalate ", " toolNames ++ executeDescTail

/-- A registered tool, as far as the registry logic inspects it: its name
and description.  (Schemas and handlers do not influence registry
validation; handlers are modelled separately by the tool-call pipeline.) -/
structure ToolSpec where
  name : String
  description : String
deriving Repr, DecidableEq

/-- The four built-in tools appended by `createSandbox` after the user
tools, with their source descriptions. -/
def builtinTools : List ToolSpec :=
  [⟨"describe_tool", "Get a tool's schema by name"⟩,
   ⟨"list_tools", "List all available tools"⟩,
   ⟨"sleep", "Wait for the specified number of milliseconds"⟩,
   ⟨"get_blob", "Get raw blob data by ID. Use this to access base64 data for images/audio/PDFs that were extracted from tool results. Blobs are only available within the current execution - save to store if needed across executions."⟩]

/-- The names of the four built-in tools. -/
def builtinNames : List String := builtinTools.map (fun t => t.name)

/-- The duplicate scan of `createSandbox`: walk the supplied names with a
seen-set, reporting the first name already seen.  Built-ins are not yet in
the list when this runs. -/
def findFirstDuplicate : List String → List String → Option String
  | [], _ => none
  | n :: rest, seen => if n ∈ seen then some n else findFirstDuplicate rest (n :: seen)

/-- The registry part of a sandbox: the ordered tool list and the current
description of the `execute` tool. -/
structure SandboxReg where
  tools : List ToolSpec
  executeDescription : String
deriving Repr, DecidableEq

/-- Registry construction in `createSandbox`: validate the supplied tools
for duplicate names (throwing `Duplicate tool name: <n>`), then push the
four built-ins unconditionally and render the execute description. -/
def createSandboxReg (userTools : List ToolSpec) : Except String SandboxReg :=
  match findFirstDuplicate (userTools.map (fun t => t.name)) [] with
  | some n => .error ("Duplicate tool name: " ++ n)
  | none =>
    let tools := userTools ++ builtinTools
    .ok ⟨tools, generateExecuteDescription (tools.map (fun t => t.name))⟩

/-- `sandbox.addTool`: reject any name collision with the current list
(user tools and built-ins alike), else push and refresh the description. -/
def sandboxAddTool (s : SandboxReg) (t : ToolSpec) : Except String SandboxReg :=
  if s.tools.any (fun u => u.name = t.name) then
    .error ("Duplicate tool name: " ++ t.name)
  else
    let tools := s.tools ++ [t]
    .ok ⟨tools, generateExecuteDescription (tools.map (fun u => u.name))⟩

/-- `sandbox.removeTool`: splice out the first tool with the given name,
failing with `Tool not found: <name>` when there is none, and refresh the
description. -/
def sandboxRemoveTool (s : SandboxReg) (n : String) : Except String SandboxReg :=
  match s.tools.findIdx? (fun t => t.name = n) with
  | none => .error ("Tool not found: " ++ n)
  | some i =>
    let tools := s.tools.eraseIdx i
    .ok ⟨tools, generateExecuteDescription (tools.map (fun u => u.name))⟩

/-- A guest-side property descriptor, as set up by the store
initialisation script (`Object.defineProperty` attributes). -/
structure PropDesc where
  value : Json
  writable : Bool
  enumerable : Bool
  configurable : Bool

/-- The host-side store between executions.  The setter `set store(value)`
is typed `Record<string, unknown>` but is not validated, so a host can
assign a value whose JSON text is not an object literal (for example
`undefined`, whose `JSON.stringify` is `undefined`); `nonObject` stands
for any such assignment, on which the init script's
`Object.defineProperty(globalThis.store, ...)` throws. -/
inductive StoreVal where
  | obj (fields : List (String × Json))
  | nonObject

/-- `prevResult ?? null`: the value injected as `_prev` (a JSON `null`
when no execution has succeeded yet). -/
def prevOrNull : JsVal → Json
  | .undef => .null
  | .val j => j

/-- `Object.defineProperty(store, '_prev', ...)`: replace the descriptor
in place when the key exists (JSON-literal properties are configurable),
append otherwise. -/
def definePropSet (props : List (String × PropDesc)) (k : String) (d : PropDesc) :
    List (String × PropDesc) :=
  if props.any (fun p => p.1 = k) then
    props.map (fun p => if p.1 = k then (k, d) else p)
  else props ++ [(k, d)]

/-- First-match lookup among guest property descriptors. -/
def lookupProp (props : List (String × PropDesc)) (k : String) : Option PropDesc :=
  (props.find? (fun p => p.1 = k)).map (fun p => p.2)

/-- The store initialisation script: evaluate
`globalThis.store = <JSON.stringify(store)>` then define `_prev` as a
non-writable, non-configurable, enumerable property holding
`JSON.stringify(prevResult ?? null)`.  Returns `none` when the script
throws (store text is not an object literal), which `executeCode` turns
into the thrown `Failed to initialize store`. -/
def initGuestStore (store : StoreVal) (prevResult : JsVal) :
    Option (List (String × PropDesc)) :=
  match store with
  | .nonObject => none
  | .obj fields =>
    let base := fields.map (fun p => (p.1, PropDesc.mk p.2 true true true))
    some (definePropSet base "_prev" (PropDesc.mk (prevOrNull prevResult) false true false))

/-- JS `delete o[k]` on a dumped (plain, key-unique) object: the key is
no longer present afterwards. -/
def jsDelete (fields : List (String × Json)) (k : String) : List (String × Json) :=
  fields.filter (fun p => p.1 ≠ k)

/-- The mutable per-sandbox state closed over by `createSandbox`:
the store, the previous execution's return value (initially `undefined`),
and the blob table. -/
structure SandboxState where
  store : StoreVal
  prevResult : JsVal
  blobTable : List (String × Blob)

/-- The state a fresh sandbox starts in. -/
def initialSandboxState : SandboxState :=
  ⟨.obj [], .undef, []⟩

/-- Configuration resolved in `createSandbox`. -/
structure SandboxConfig where
  maxResultChars : Nat
  maxPollIterations : Nat
deriving Repr, DecidableEq

/-- Default maximum result size in characters before truncation. -/
def DEFAULT_maxResultChars : Nat := 40000

/-- Default maximum poll iterations (~50 seconds). -/
def DEFAULT_MAX_POLL_ITERATIONS : Nat := 500

/-- `createSandbox`'s option resolution:
`options.experimental_maxResultChars ?? DEFAULT_maxResultChars` and
`options.experimental_maxPollIterations ?? DEFAULT_MAX_POLL_ITERATIONS`. -/
def resolveConfig (experimentalMaxResultChars experimentalMaxPollIterations : Option Nat) :
    SandboxConfig :=
  ⟨experimentalMaxResultChars.getD DEFAULT_maxResultChars,
   experimentalMaxPollIterations.getD DEFAULT_MAX_POLL_ITERATIONS⟩

/-- One execution's result record `{success, result?, error?, blobs}`. -/
structure ExecuteResult where
  success : Bool
  result : Option JsVal := none
  error : Option String := none
  blobs : List Blob

/-- How one guest evaluation settles, as observed by the driver after the
store was initialised.  The VM itself is the out-of-scope black box; each
constructor carries exactly the data the driver reads off it on that path:
the final blob-table contents (populated by tool calls during the run), and
on fulfilment the dumped return value and the dumped guest store. -/
inductive GuestOutcome where
  | evalError (msg : String)
  | fulfilled (value : JsVal) (finalStore : List (String × Json)) (blobs : List (String × Blob))
  | rejected (msg : String) (blobs : List (String × Blob))
  | timeout (blobs : List (String × Blob))
  | neverSettled (blobs : List (String × Blob))

/-- The blob-table contents at the moment the driver returns, per outcome.
An evaluation error surfaces before any tool work, so its table is empty. -/
def GuestOutcome.finalBlobs : GuestOutcome → List (String × Blob)
  | .evalError _ => []
  | .fulfilled _ _ blobs => blobs
  | .rejected _ blobs => blobs
  | .timeout blobs => blobs
  | .neverSettled blobs => blobs

/-- `executeCode`: one execution.  Clears the blob table, runs the store
initialisation script (throwing `Failed to initialize store` when it
errors — the `throw` at the top of the `try` block has no matching
`catch`, so the promise returned by `execute.handler` rejects), then
classifies the guest outcome: an evaluation error, rejection, timeout, or
unsettled promise each produce `{success: false, error, blobs}` and leave
`store`/`prevResult` untouched; fulfilment reads back the store, strips
`_prev`, records the value as `prevResult`, and reports truncation when
the serialised value exceeds `maxResultChars`.  Returns the host-visible
result (`Except.error` = the promise rejected) with the post-state. -/
def executeCode (cfg : SandboxConfig) (st : SandboxState) (outcome : GuestOutcome) :
    Except String ExecuteResult × SandboxState :=
  match initGuestStore st.store st.prevResult with
  | none => (.error "Failed to initialize store", { st with blobTable := [] })
  | some _guestStore =>
    match outcome with
    | .evalError msg =>
      (.ok ⟨false, none, some (augmentErrorMessage msg), []⟩,
       { st with blobTable := [] })
    | .fulfilled value finalStore blobs =>
      let updatedStore := jsDelete finalStore "_prev"
      let resultStr := (serializeJs value).getD ""
      let res : ExecuteResult :=
        if resultStr.length > cfg.maxResultChars then
          ⟨true, some value,
           some ("Result truncated (" ++ toString resultStr.length ++ " > "
             ++ toString cfg.maxResultChars ++ " chars)"),
           blobs.map (fun p => p.2)⟩
        else ⟨true, some value, none, blobs.map (fun p => p.2)⟩
      (.ok res, ⟨.obj updatedStore, value, blobs⟩)
    | .rejected msg blobs =>
      (.ok ⟨false, none, some (augmentErrorMessage msg), blobs.map (fun p => p.2)⟩,
       { st with blobTable := blobs })
    | .timeout blobs =>
      (.ok ⟨false, none, some "Execution timed out", blobs.map (fun p => p.2)⟩,
       { st with blobTable := blobs })
    | .neverSettled blobs =>
      (.ok ⟨false, none, some "Promise did not resolve", blobs.map (fun p => p.2)⟩,
       { st with blobTable := blobs })

/-- The built-in `get_blob` tool's handler: look the id up in the current
blob table, returning the blob record or `{error: "Blob not found: <id>"}`. -/
def getBlobHandler (blobTable : List (String × Blob)) (id : String) : Json :=
  match lookupBlob blobTable id with
  | none => .obj [("error", .str ("Blob not found: " ++ id))]
  | some blob => .obj [("id", .str blob.id), ("data", .str blob.data), ("mimeType", .str blob.mimeType)]

/-- The first recognised shape of `extractBlobs`:
`{type: 'image'|'audio', data: string, mimeType: string}`.
Returns the `(data, mimeType)` strings when matched. -/
def imageAudioShape (fields : List (String × Json)) : Option (String × String) :=
  match getField fields "type", getField fields "data", getField fields "mimeType" with
  | some (.str t), some (.str d), some (.str m) =>
    if t = "image" || t = "audio" then some (d, m) else none
  | _, _, _ => none

/-- The second recognised shape of `extractBlobs`:
`{blob: string, mimeType: string}` (resource blobs; any other fields are
lost at this position).  Returns the `(blob, mimeType)` strings. -/
def resourceBlobShape (fields : List (String × Json)) : Option (String × String) :=
  match getField fields "blob", getField fields "mimeType" with
  | some (.str b), some (.str m) => some (b, m)
  | _, _ => none

/-- The `{type: 'blob_ref', id, mimeType}` reference substituted for a
lifted payload. -/
def blobRef (id mimeType : String) : Json :=
  .obj [("type", .str "blob_ref"), ("id", .str id), ("mimeType", .str mimeType)]

mutual

/-- `extractBlobs(value, blobStore)`: walk a JSON value; lift the two
recognised payload shapes into the blob table under a fresh
`generateBlobId` (six random draws each, hence `k + 6`), substituting a
`blob_ref`; map arrays; rebuild plain objects key by key; return
everything else unchanged.  (In the source the array test comes after the
shape tests, but an array never matches them — its `type`/`blob` property
reads yield `undefined` — so matching on the constructor is equivalent.)
Threads the blob table and the random-draw counter. -/
def extractBlobs (rand : Nat → Fin 36) (v : Json) (table : List (String × Blob)) (k : Nat) :
    Json × List (String × Blob) × Nat :=
  match v with
  | .arr elems =>
    let r := extractBlobsList rand elems table k
    (.arr r.1, r.2)
  | .obj fields =>
    match imageAudioShape fields with
    | some (d, m) =>
      let id := generateBlobId rand k
      (blobRef id m, mapSet table id ⟨id, d, m⟩, k + 6)
    | none =>
      match resourceBlobShape fields with
      | some (b, m) =>
        let id := generateBlobId rand k
        (blobRef id m, mapSet table id ⟨id, b, m⟩, k + 6)
      | none =>
        let r := extractBlobsFields rand fields table k
        (.obj r.1, r.2)
  | other => (other, table, k)

/-- `value.map((item) => extractBlobs(item, blobStore))`, left to right. -/
def extractBlobsList (rand : Nat → Fin 36) (vs : List Json) (table : List (String × Blob)) (k : Nat) :
    List Json × List (String × Blob) × Nat :=
  match vs with
  | [] => ([], table, k)
  | x :: xs =>
    let r := extractBlobs rand x table k
    let rs := extractBlobsList rand xs r.2.1 r.2.2
    (r.1 :: rs.1, rs.2)

/-- The `for (const [k, val] of Object.entries(v))` walk, in insertion order. -/
def extractBlobsFields (rand : Nat → Fin 36) (fs : List (String × Json)) (table : List (String × Blob)) (k : Nat) :
    List (String × Json) × List (String × Blob) × Nat :=
  match fs with
  | [] => ([], table, k)
  | (key, x) :: xs =>
    let r := extractBlobs rand x table k
    let rs := extractBlobsFields rand xs r.2.1 r.2.2
    ((key, r.1) :: rs.1, rs.2)

end

/-- `extractBlobs` on a possibly-`undefined` handler result
(`typeof undefined !== 'object'`, so it passes through unchanged). -/
def extractBlobsJs (rand : Nat → Fin 36) (v : JsVal) (table : List (String × Blob)) (k : Nat) :
    JsVal × List (String × Blob) × Nat :=
  match v with
  | .undef => (.undef, table, k)
  | .val j =>
    let r := extractBlobs rand j table k
    (.val r.1, r.2)

/-- How one `tool(name, args)` call settles for the guest: the guest-side
promise either resolves with a value or rejects with an error message. -/
inductive GuestSettlement where
  | resolve (v : JsVal)
  | reject (msg : String)

/-- The host's optional event callbacks, as pure functions on the event
fields they see.  `onBeforeToolCall` returns the (possibly mutated)
`args` and the optional `returnValue`, or throws (`Except.error` carries
the thrown message).  `onToolCallSuccess` returns the (possibly mutated)
`result`.  `onToolCallError` returns `some r` exactly when the callback
set `event.result` (the `'result' in errorEvent` presence test; `r` may
itself be `undefined`). -/
structure Callbacks where
  onBeforeToolCall : Option (String → Json → Except String (Json × Option JsVal))
  onToolCallSuccess : Option (String → Json → JsVal → JsVal)
  onToolCallError : Option (String → Json → String → Option JsVal)

/-- The absent-callbacks host (`options.onBeforeToolCall?.` etc. all skip). -/
def noCallbacks : Callbacks := ⟨none, none, none⟩

/-- `options.onBeforeToolCall?.(beforeEvent)`. -/
def applyBefore (cb : Callbacks) (toolName : String) (args : Json) :
    Except String (Json × Option JsVal) :=
  match cb.onBeforeToolCall with
  | none => .ok (args, none)
  | some f => f toolName args

/-- `options.onToolCallSuccess?.(successEvent)` followed by reading
`successEvent.result`. -/
def applySuccess (cb : Callbacks) (toolName : String) (args : Json) (result : JsVal) : JsVal :=
  match cb.onToolCallSuccess with
  | none => result
  | some f => f toolName args result

/-- `options.onToolCallError?.(errorEvent)` followed by the
`'result' in errorEvent` test. -/
def applyError (cb : Callbacks) (toolName : String) (args : Json) (errMsg : String) :
    Option JsVal :=
  match cb.onToolCallError with
  | none => none
  | some f => f toolName args errMsg

/-- A tool handler as the pipeline sees it: a host-async function from the
(possibly callback-mutated) arguments to a result, or a rejection whose
`error.message` is the string the guest will see. -/
def ToolHandler : Type := Json → Except String JsVal

/-- The guest-observable outcome of one `tool(name, args)` call, translated
from the async work spawned by the bridge: unknown tool rejects with
`Tool not found`; a throwing before-callback rejects with its message; a
`returnValue` short-circuit skips the handler; otherwise the handler runs
on the mutated args; its fulfilment (after the success callback) is
blob-extracted and resolved; its rejection consults the error callback —
a recovery `result` is blob-extracted and resolved, else the call rejects
with `error.message`.  Threads the blob table and the random counter. -/
def runToolCall (rand : Nat → Fin 36) (handlerFound : Option ToolHandler)
    (cb : Callbacks) (toolName : String) (args : Json)
    (table : List (String × Blob)) (k : Nat) :
    GuestSettlement × List (String × Blob) × Nat :=
  match handlerFound with
  | none => (.reject ("Tool not found: " ++ toolName), table, k)
  | some handler =>
    match applyBefore cb toolName args with
    | .error msg => (.reject msg, table, k)
    | .ok (mutatedArgs, returnValueOpt) =>
      match returnValueOpt with
      | some rv =>
        let result := applySuccess cb toolName args rv
        let r := extractBlobsJs rand result table k
        (.resolve r.1, r.2)
      | none =>
        match handler mutatedArgs with
        | .ok result0 =>
          let result := applySuccess cb toolName args result0
          let r := extractBlobsJs rand result table k
          (.resolve r.1, r.2)
        | .error errMsg =>
          match applyError cb toolName args errMsg with
          | some recovered =>
            let r := extractBlobsJs rand recovered table k
            (.resolve r.1, r.2)
          | none => (.reject errMsg, table, k)

/-- A JavaScript runtime value for the mutable-heap view of the extractor:
a primitive, or a reference to a heap object.  This finer model exists to
state the frame property (`extractBlobs` never mutates its input), which
the aggregate `Json` view cannot express. -/
inductive HVal where
  | null
  | bool (b : Bool)
  | num (n : Int)
  | str (s : String)
  | addr (a : Nat)
deriving Repr, DecidableEq

/-- A heap object: an array of values or a plain object. -/
inductive HObj where
  | arr (elems : List HVal)
  | obj (props : List (String × HVal))
deriving Repr, DecidableEq

/-- The object heap: an allocation list and the next fresh address. -/
structure Heap where
  entries : List (Nat × HObj)
  next : Nat
deriving Repr, DecidableEq

/-- Dereference an address. -/
def Heap.lookup (h : Heap) (a : Nat) : Option HObj :=
  (h.entries.find? (fun p => p.1 = a)).map (fun p => p.2)

/-- Allocate a fresh object (`{...}`, `[...]` and `value.map` all create
new objects); never touches existing entries. -/
def Heap.alloc (h : Heap) (o : HObj) : Heap × Nat :=
  (⟨h.entries ++ [(h.next, o)], h.next + 1⟩, h.next)

/-- Heap `h'` preserves every object of `h`: nothing reachable in `h` was
mutated or dropped. -/
def heapExtends (h h' : Heap) : Prop :=
  ∀ a o, h.lookup a = some o → h'.lookup a = some o

/-- JS property read on a heap object's own properties. -/
def getPropH (props : List (String × HVal)) (k : String) : Option HVal :=
  (props.find? (fun p => p.1 = k)).map (fun p => p.2)

/-- Heap-level test for `{type: 'image'|'audio', data: string, mimeType: string}`. -/
def imageAudioShapeH (props : List (String × HVal)) : Option (String × String) :=
  match getPropH props "type", getPropH props "data", getPropH props "mimeType" with
  | some (.str t), some (.str d), some (.str m) =>
    if t = "image" || t = "audio" then some (d, m) else none
  | _, _, _ => none

/-- Heap-level test for `{blob: string, mimeType: string}`. -/
def resourceBlobShapeH (props : List (String × HVal)) : Option (String × String) :=
  match getPropH props "blob", getPropH props "mimeType" with
  | some (.str b), some (.str m) => some (b, m)
  | _, _ => none

/-- The heap object for a `{type: 'blob_ref', id, mimeType}` literal. -/
def blobRefH (id mimeType : String) : HObj :=
  .obj [("type", .str "blob_ref"), ("id", .str id), ("mimeType", .str mimeType)]

mutual

/-- `extractBlobs` over the mutable heap: reads the input structure
through `Heap.lookup` and builds its result exclusively through
`Heap.alloc` — there is no heap update anywhere, which is exactly the
source's behaviour (it only constructs fresh literals and `map` results).
`fuel` bounds the recursion depth (the source recurses on the call stack;
a terminating run is a `some`). -/
def extractBlobsH (rand : Nat → Fin 36) :
    Nat → HVal → Heap → List (String × Blob) → Nat →
    Option (HVal × Heap × List (String × Blob) × Nat)
  | 0, _, _, _, _ => none
  | fuel + 1, v, h, table, k =>
    match v with
    | .addr a =>
      match h.lookup a with
      | none => none
      | some (.arr elems) =>
        match extractBlobsHList rand fuel elems h table k with
        | none => none
        | some (elems', h', table', k') =>
          let al := h'.alloc (.arr elems')
          some (.addr al.2, al.1, table', k')
      | some (.obj props) =>
        match imageAudioShapeH props with
        | some (d, m) =>
          let id := generateBlobId rand k
          let al := h.alloc (blobRefH id m)
          some (.addr al.2, al.1, mapSet table id ⟨id, d, m⟩, k + 6)
        | none =>
          match resourceBlobShapeH props with
          | some (b, m) =>
            let id := generateBlobId rand k
            let al := h.alloc (blobRefH id m)
            some (.addr al.2, al.1, mapSet table id ⟨id, b, m⟩, k + 6)
          | none =>
            match extractBlobsHFields rand fuel props h table k with
            | none => none
            | some (props', h', table', k') =>
              let al := h'.alloc (.obj props')
              some (.addr al.2, al.1, table', k')
    | prim => some (prim, h, table, k)
termination_by fuel _ _ _ _ => (fuel, 0)

/-- Heap-level `value.map((item) => extractBlobs(item, blobStore))`. -/
def extractBlobsHList (rand : Nat → Fin 36) :
    Nat → List HVal → Heap → List (String × Blob) → Nat →
    Option (List HVal × Heap × List (String × Blob) × Nat)
  | _, [], h, table, k => some ([], h, table, k)
  | fuel, x :: xs, h, table, k =>
    match extractBlobsH rand fuel x h table k with
    | none => none
    | some (x', h', table', k') =>
      match extractBlobsHList rand fuel xs h' table' k' with
      | none => none
      | some (xs', h'', table'', k'') => some (x' :: xs', h'', table'', k'')
termination_by fuel vs _ _ _ => (fuel, vs.length + 1)

/-- Heap-level `Object.entries` walk. -/
def extractBlobsHFields (rand : Nat → Fin 36) :
    Nat → List (String × HVal) → Heap → List (String × Blob) → Nat →
    Option (List (String × HVal) × Heap × List (String × Blob) × Nat)
  | _, [], h, table, k => some ([], h, table, k)
  | fuel, (key, x) :: xs, h, table, k =>
    match extractBlobsH rand fuel x h table k with
    | none => none
    | some (x', h', table', k') =>
      match extractBlobsHFields rand fuel xs h' table' k' with
      | none => none
      | some (xs', h'', table'', k'') => some ((key, x') :: xs', h'', table'', k'')
termination_by fuel fs _ _ _ => (fuel, fs.length + 1)

end

/-- Unfolding: `executeCode` when the store-initialisation script throws. -/
theorem executeCode_initFail (cfg : SandboxConfig) (st : SandboxState) (outcome : GuestOutcome)
    (h : initGuestStore st.store st.prevResult = none) :
    executeCode cfg st outcome = (.error "Failed to initialize store", { st with blobTable := [] }) := by
  unfold executeCode
  rw [h]

/-- Unfolding: `executeCode` on an evaluation (compile/immediate-throw) error. -/
theorem executeCode_evalError (cfg : SandboxConfig) (st : SandboxState) (msg : String)
    (gs : List (String × PropDesc)) (h : initGuestStore st.store st.prevResult = some gs) :
    executeCode cfg st (.evalError msg)
      = (.ok ⟨false, none, some (augmentErrorMessage msg), []⟩, { st with blobTable := [] }) := by
  unfold executeCode
  rw [h]

/-- Unfolding: `executeCode` on a fulfilled main promise. -/
theorem executeCode_fulfilled (cfg : SandboxConfig) (st : SandboxState) (v : JsVal)
    (fs : List (String × Json)) (bl : List (String × Blob))
    (gs : List (String × PropDesc)) (h : initGuestStore st.store st.prevResult = some gs) :
    executeCode cfg st (.fulfilled v fs bl)
      = (.ok (if ((serializeJs v).getD "").length > cfg.maxResultChars then
            ⟨true, some v,
             some ("Result truncated (" ++ toString ((serializeJs v).getD "").length ++ " > "
               ++ toString cfg.maxResultChars ++ " chars)"),
             bl.map (fun p => p.2)⟩
          else ⟨true, some v, none, bl.map (fun p => p.2)⟩),
         ⟨.obj (jsDelete fs "_prev"), v, bl⟩) := by
  unfold executeCode
  rw [h]

/-- Unfolding: `executeCode` on a rejected main promise. -/
theorem executeCode_rejected (cfg : SandboxConfig) (st : SandboxState) (msg : String)
    (bl : List (String × Blob))
    (gs : List (String × PropDesc)) (h : initGuestStore st.store st.prevResult = some gs) :
    executeCode cfg st (.rejected msg bl)
      = (.ok ⟨false, none, some (augmentErrorMessage msg), bl.map (fun p => p.2)⟩,
         { st with blobTable := bl }) := by
  unfold executeCode
  rw [h]

/-- Unfolding: `executeCode` on a poll-budget timeout. -/
theorem executeCode_timeout (cfg : SandboxConfig) (st : SandboxState)
    (bl : List (String × Blob))
    (gs : List (String × PropDesc)) (h : initGuestStore st.store st.prevResult = some gs) :
    executeCode cfg st (.timeout bl)
      = (.ok ⟨false, none, some "Execution timed out", bl.map (fun p => p.2)⟩,
         { st with blobTable := bl }) := by
  unfold executeCode
  rw [h]

/-- Unfolding: `executeCode` on a never-settling main promise. -/
theorem executeCode_neverSettled (cfg : SandboxConfig) (st : SandboxState)
    (bl : List (String × Blob))
    (gs : List (String × PropDesc)) (h : initGuestStore st.store st.prevResult = some gs) :
    executeCode cfg st (.neverSettled bl)
      = (.ok ⟨false, none, some "Promise did not resolve", bl.map (fun p => p.2)⟩,
         { st with blobTable := bl }) := by
  unfold executeCode
  rw [h]

/-- C5: a successful execution whose return value serialises to more than
`maxResultChars` characters (default 40,000) still reports
`success: true` with the full untruncated `result`, plus
`error: "Result truncated (<n> > <cap> chars)"` where `<n>` is the
serialised length and `<cap>` the configured cap; at or below the cap no
error is attached. -/
theorem C5_truncation (cfg : SandboxConfig) (fields : List (String × Json)) (prev : JsVal)
    (bt : List (String × Blob)) (v : JsVal) (fs : List (String × Json))
    (bl : List (String × Blob)) :
    (resolveConfig none none).maxResultChars = 40000 ∧
    ∃ res : ExecuteResult,
      (executeCode cfg ⟨StoreVal.obj fields, prev, bt⟩ (.fulfilled v fs bl)).1 = Except.ok res ∧
      res.success = true ∧
      res.result = some v ∧
      (((serializeJs v).getD "").length > cfg.maxResultChars →
        res.error = some ("Result truncated (" ++ toString ((serializeJs v).getD "").length
          ++ " > " ++ toString cfg.maxResultChars ++ " chars)")) ∧
      (((serializeJs v).getD "").length ≤ cfg.maxResultChars → res.error = none) := by
  refine ⟨rfl, ?_⟩
  have hinit : initGuestStore (StoreVal.obj fields) prev
      = some (definePropSet (fields.map (fun p => (p.1, PropDesc.mk p.2 true true true)))
          "_prev" (PropDesc.mk (prevOrNull prev) false true false)) := rfl
  rw [executeCode_fulfilled cfg _ v fs bl _ hinit]
  by_cases hc : ((serializeJs v).getD "").length > cfg.maxResultChars
  · rw [if_pos hc]
    exact ⟨_, rfl, rfl, rfl, fun _ => rfl, fun h => absurd hc (by omega)⟩
  · rw [if_neg hc]
    exact ⟨_, rfl, rfl, rfl, fun h => absurd h hc, fun _ => rfl⟩

/-- C5 applied at concrete inputs: with the cap overridden to 3, returning
the string `"abcdef"` (serialised as `"abcdef"` with quotes, 8 chars)
succeeds with the full result and the exact truncation message; with the
default cap the same execution attaches no error. -/
theorem C5_truncation_witness :
    ∃ res : ExecuteResult,
      (executeCode (resolveConfig (some 3) none) ⟨StoreVal.obj [], JsVal.undef, []⟩
          (.fulfilled (JsVal.val (Json.str "abcdef")) [] [])).1 = Except.ok res ∧
      res.success = true ∧
      res.result = some (JsVal.val (Json.str "abcdef")) ∧
      res.error = some "Result truncated (8 > 3 chars)" := by
  obtain ⟨-, res, h1, h2, h3, h4, -⟩ :=
    C5_truncation (resolveConfig (some 3) none) [] JsVal.undef []
      (JsVal.val (Json.str "abcdef")) [] []
  refine ⟨res, h1, h2, h3, ?_⟩
  rw [h4 (by decide)]
  rfl

/-- C8: whenever an execution's `ExecuteResult` has `success: false`
(guest throw, compile error, timeout, or unsettled promise), the
host-visible store and the `prevResult` slot feeding the next execution's
`_prev` are exactly what they were before: only the fulfilled branch
assigns them. -/
theorem C8_failure_preserves_store (cfg : SandboxConfig) (st : SandboxState)
    (outcome : GuestOutcome) (res : ExecuteResult) (st' : SandboxState)
    (h : executeCode cfg st outcome = (Except.ok res, st'))
    (hfail : res.success = false) :
    st'.store = st.store ∧ st'.prevResult = st.prevResult := by
  cases hinit : initGuestStore st.store st.prevResult with
  | none =>
    rw [executeCode_initFail cfg st outcome hinit] at h
    simp at h
  | some gs =>
    cases outcome with
    | evalError msg =>
      rw [executeCode_evalError cfg st msg gs hinit] at h
      obtain ⟨-, h2⟩ := Prod.mk.injEq .. ▸ h
      rw [← h2]
      exact ⟨rfl, rfl⟩
    | fulfilled v fs bl =>
      rw [executeCode_fulfilled cfg st v fs bl gs hinit] at h
      have h1 := congrArg Prod.fst h
      simp only at h1
      have hres := Except.ok.inj h1
      rw [← hres] at hfail
      by_cases hc : ((serializeJs v).getD "").length > cfg.maxResultChars
      · rw [if_pos hc] at hfail
        simp at hfail
      · rw [if_neg hc] at hfail
        simp at hfail
    | rejected msg bl =>
      rw [executeCode_rejected cfg st msg bl gs hinit] at h
      obtain ⟨-, h2⟩ := Prod.mk.injEq .. ▸ h
      rw [← h2]
      exact ⟨rfl, rfl⟩
    | timeout bl =>
      rw [executeCode_timeout cfg st bl gs hinit] at h
      obtain ⟨-, h2⟩ := Prod.mk.injEq .. ▸ h
      rw [← h2]
      exact ⟨rfl, rfl⟩
    | neverSettled bl =>
      rw [executeCode_neverSettled cfg st bl gs hinit] at h
      obtain ⟨-, h2⟩ := Prod.mk.injEq .. ▸ h
      rw [← h2]
      exact ⟨rfl, rfl⟩

/-- C8 applied at a concrete input: a timed-out execution of a sandbox
holding `{k: 1}` with a previous result leaves both untouched. -/
theorem C8_failure_preserves_store_witness :
    (executeCode (resolveConfig none none)
        ⟨StoreVal.obj [("k", Json.num 1)], JsVal.val (Json.num 7), []⟩
        (GuestOutcome.timeout [])).2.store = StoreVal.obj [("k", Json.num 1)] ∧
    (executeCode (resolveConfig none none)
        ⟨StoreVal.obj [("k", Json.num 1)], JsVal.val (Json.num 7), []⟩
        (GuestOutcome.timeout [])).2.prevResult = JsVal.val (Json.num 7) :=
  C8_failure_preserves_store (resolveConfig none none)
    ⟨StoreVal.obj [("k", Json.num 1)], JsVal.val (Json.num 7), []⟩
    (GuestOutcome.timeout []) _ _ rfl rfl

/-- C7 counterexample: the claim says the blob table is empty outside an
execution because blobs are discarded at the end of the execution that
created them.  In the code the table is only cleared at the *start* of
the next execution (`blobStore.clear()`), so after an execution that
lifted a blob completes, the table still holds that blob, and the
`get_blob` handler invoked between executions still returns it. -/
theorem C7_counterexample :
    ((executeCode (resolveConfig none none) initialSandboxState
        (.fulfilled (JsVal.val Json.null) []
          [("blob_abc123", ⟨"blob_abc123", "QUJD", "image/png"⟩)])).2).blobTable ≠ [] ∧
    getBlobHandler
      ((executeCode (resolveConfig none none) initialSandboxState
        (.fulfilled (JsVal.val Json.null) []
          [("blob_abc123", ⟨"blob_abc123", "QUJD", "image/png"⟩)])).2).blobTable
      "blob_abc123"
      = Json.obj [("id", .str "blob_abc123"), ("data", .str "QUJD"), ("mimeType", .str "image/png")] := by
  exact ⟨by decide, rfl⟩

/-- C7 (amended): `get_blob({id})` returns the blob record `{id, data,
mimeType}` when `id` is in the current blob table and
`{error: "Blob not found: <id>"}` otherwise; and the table is reset at the
*start* of every execution — the post-execution table is exactly the set
of blobs produced by that execution, with any earlier execution's blobs
discarded only at that point (between executions the last execution's
blobs remain in the table). -/
theorem C7_get_blob_amended :
    (∀ (table : List (String × Blob)) (id : String) (b : Blob),
      lookupBlob table id = some b →
      getBlobHandler table id
        = Json.obj [("id", .str b.id), ("data", .str b.data), ("mimeType", .str b.mimeType)]) ∧
    (∀ (table : List (String × Blob)) (id : String),
      lookupBlob table id = none →
      getBlobHandler table id = Json.obj [("error", .str ("Blob not found: " ++ id))]) ∧
    (∀ (cfg : SandboxConfig) (fields : List (String × Json)) (prev : JsVal)
        (bt : List (String × Blob)) (outcome : GuestOutcome),
      ((executeCode cfg ⟨StoreVal.obj fields, prev, bt⟩ outcome).2).blobTable
        = outcome.finalBlobs) := by
  refine ⟨?_, ?_, ?_⟩
  · intro table id b hb
    unfold getBlobHandler
    rw [hb]
  · intro table id hb
    unfold getBlobHandler
    rw [hb]
  · intro cfg fields prev bt outcome
    have hinit : initGuestStore (StoreVal.obj fields) prev
        = some (definePropSet (fields.map (fun p => (p.1, PropDesc.mk p.2 true true true)))
            "_prev" (PropDesc.mk (prevOrNull prev) false true false)) := rfl
    cases outcome with
    | evalError msg => rw [executeCode_evalError cfg _ msg _ hinit]; rfl
    | fulfilled v fs bl => rw [executeCode_fulfilled cfg _ v fs bl _ hinit]; rfl
    | rejected msg bl => rw [executeCode_rejected cfg _ msg bl _ hinit]; rfl
    | timeout bl => rw [executeCode_timeout cfg _ bl _ hinit]; rfl
    | neverSettled bl => rw [executeCode_neverSettled cfg _ bl _ hinit]; rfl

/-- C7 amended, applied at concrete inputs: a present id returns its
record, an absent id returns the error object, and an execution that
lifted one blob leaves exactly that blob in the table. -/
theorem C7_get_blob_amended_witness :
    getBlobHandler [("blob_k7m2x9", ⟨"blob_k7m2x9", "QUJD", "image/png"⟩)] "blob_k7m2x9"
      = Json.obj [("id", .str "blob_k7m2x9"), ("data", .str "QUJD"), ("mimeType", .str "image/png")] ∧
    getBlobHandler [] "blob_k7m2x9"
      = Json.obj [("error", .str "Blob not found: blob_k7m2x9")] :=
  ⟨C7_get_blob_amended.1 [("blob_k7m2x9", ⟨"blob_k7m2x9", "QUJD", "image/png"⟩)]
      "blob_k7m2x9" ⟨"blob_k7m2x9", "QUJD", "image/png"⟩ rfl,
   C7_get_blob_amended.2.1 [] "blob_k7m2x9" rfl⟩

/-- Redefining an existing key via the in-place branch of `definePropSet`
yields the new descriptor on lookup. -/
theorem lookupProp_overwrite (props : List (String × PropDesc)) (k : String) (d : PropDesc)
    (h : props.any (fun p => p.1 = k) = true) :
    lookupProp (props.map (fun p => if p.1 = k then (k, d) else p)) k = some d := by
  induction props with
  | nil => simp at h
  | cons p ps ih =>
    by_cases hp : p.1 = k
    · simp [lookupProp, hp]
    · simp only [List.any_cons, hp, decide_False, Bool.false_or] at h
      simp only [List.map_cons, if_neg hp]
      have : lookupProp (p :: ps.map (fun p => if p.1 = k then (k, d) else p)) k
          = lookupProp (ps.map (fun p => if p.1 = k then (k, d) else p)) k := by
        simp [lookupProp, List.find?, hp]
      rw [this, ih h]

/-- Appending a fresh key at the end of the property list makes it the
lookup result when no earlier property has that key. -/
theorem lookupProp_append_single (props : List (String × PropDesc)) (k : String) (d : PropDesc)
    (h : props.any (fun p => p.1 = k) = false) :
    lookupProp (props ++ [(k, d)]) k = some d := by
  unfold lookupProp
  rw [List.find?_append]
  have hnone : props.find? (fun p => p.1 = k) = none := by
    rw [List.find?_eq_none]
    intro x hx
    have := List.any_eq_false.mp h x hx
    simpa using this
  rw [hnone]
  simp [List.find?]

/-- `Object.defineProperty(store, '_prev', d)` makes `_prev` read back as
`d`, whether or not the hydrated store already had a `_prev` key. -/
theorem lookupProp_definePropSet (props : List (String × PropDesc)) (k : String) (d : PropDesc) :
    lookupProp (definePropSet props k d) k = some d := by
  unfold definePropSet
  by_cases h : props.any (fun p => p.1 = k)
  · rw [if_pos h]
    exact lookupProp_overwrite props k d h
  · rw [if_neg h]
    exact lookupProp_append_single props k d (Bool.eq_false_iff.mpr h)

/-- After `delete updatedStore._prev` the key is gone. -/
theorem getField_jsDelete (fs : List (String × Json)) (k : String) :
    getField (jsDelete fs k) k = none := by
  induction fs with
  | nil => rfl
  | cons p ps ih =>
    simp only [jsDelete, ne_eq, List.filter_cons, getField] at ih ⊢
    by_cases hp : p.1 = k
    · simp [hp]
    · simp [hp, List.find?]

/-- C3: the guest-visible store carries `_prev` as a non-writable,
non-configurable, enumerable property whose value is the previous
execution's return value (a JSON `null` when there was none); after a
successful execution the re-absorbed host store has no `_prev` key, and
the value a next execution will see as `_prev` is exactly the one just
returned. -/
theorem C3_prev_protocol :
    prevOrNull JsVal.undef = Json.null ∧
    (∀ (fields : List (String × Json)) (prev : JsVal),
      ∃ props, initGuestStore (StoreVal.obj fields) prev = some props ∧
        lookupProp props "_prev"
          = some { value := prevOrNull prev, writable := false,
                   enumerable := true, configurable := false }) ∧
    (∀ (cfg : SandboxConfig) (fields : List (String × Json)) (prev : JsVal)
        (bt : List (String × Blob)) (v : JsVal) (fs : List (String × Json))
        (bl : List (String × Blob)),
      ∃ newFields,
        (executeCode cfg ⟨StoreVal.obj fields, prev, bt⟩ (.fulfilled v fs bl)).2.store
          = StoreVal.obj newFields ∧
        getField newFields "_prev" = none ∧
        (executeCode cfg ⟨StoreVal.obj fields, prev, bt⟩ (.fulfilled v fs bl)).2.prevResult
          = v) := by
  refine ⟨rfl, ?_, ?_⟩
  · intro fields prev
    exact ⟨_, rfl, lookupProp_definePropSet _ "_prev" _⟩
  · intro cfg fields prev bt v fs bl
    have hinit : initGuestStore (StoreVal.obj fields) prev
        = some (definePropSet (fields.map (fun p => (p.1, PropDesc.mk p.2 true true true)))
            "_prev" (PropDesc.mk (prevOrNull prev) false true false)) := rfl
    rw [executeCode_fulfilled cfg _ v fs bl _ hinit]
    exact ⟨jsDelete fs "_prev", rfl, getField_jsDelete fs "_prev", rfl⟩

/-- The duplicate scan succeeds exactly when the names are pairwise
distinct and none is already in the seen-set. -/
theorem findFirstDuplicate_eq_none (l : List String) :
    ∀ seen, findFirstDuplicate l seen = none ↔ l.Nodup ∧ ∀ x ∈ l, x ∉ seen := by
  induction l with
  | nil => intro seen; simp [findFirstDuplicate]
  | cons a l ih =>
    intro seen
    unfold findFirstDuplicate
    by_cases ha : a ∈ seen
    · simp only [if_pos ha]
      simp only [List.nodup_cons, List.mem_cons]
      constructor
      · intro h; cases h
      · rintro ⟨-, hall⟩
        exact absurd ha (hall a (Or.inl rfl))
    · rw [if_neg ha, ih (a :: seen)]
      simp only [List.nodup_cons, List.mem_cons]
      constructor
      · rintro ⟨hnd, hall⟩
        refine ⟨⟨fun hmem => (hall a hmem (Or.inl rfl)).elim, hnd⟩, ?_⟩
        rintro x (rfl | hx)
        · exact ha
        · intro hx2; exact hall x hx (Or.inr hx2)
      · rintro ⟨⟨hna, hnd⟩, hall⟩
        refine ⟨hnd, fun x hx => ?_⟩
        rintro (rfl | hx2)
        · exact hna hx
        · exact hall x (Or.inr hx) hx2

/-- The duplicate scan only ever reports one of the scanned names. -/
theorem findFirstDuplicate_mem (l : List String) :
    ∀ seen n, findFirstDuplicate l seen = some n → n ∈ l := by
  induction l with
  | nil => intro seen n h; cases h
  | cons a l ih =>
    intro seen n h
    unfold findFirstDuplicate at h
    by_cases ha : a ∈ seen
    · rw [if_pos ha] at h
      cases h
      exact List.mem_cons_self a l
    · rw [if_neg ha] at h
      exact List.mem_cons_of_mem a (ih (a :: seen) n h)

/-- C2 counterexample: the claim says `createSandbox` throws
`Duplicate tool name: <n>` when a supplied tool reuses a built-in name.
But the duplicate scan runs over the supplied tools *before* the four
built-ins are pushed, and the built-ins are pushed unconditionally: a
user tool named `sleep` is accepted, leaving two tools named `sleep`
in the registry. -/
theorem C2_counterexample :
    createSandboxReg [⟨"sleep", "user sleep"⟩]
      = Except.ok ⟨⟨"sleep", "user sleep"⟩ :: builtinTools,
          generateExecuteDescription ["sleep", "describe_tool", "list_tools", "sleep", "get_blob"]⟩ ∧
    ((⟨"sleep", "user sleep"⟩ :: builtinTools).filter (fun t => t.name = "sleep")).length = 2 :=
  ⟨rfl, rfl⟩

/-- C2 (amended): `createSandbox` fails, with `Duplicate tool name: <n>`
for one of the supplied names, exactly when two *supplied* tools share a
name — reuse of a built-in name is not checked at construction (the
built-ins are appended afterwards regardless); `addTool` fails with the
same message on a collision with any existing tool, built-ins included;
`removeTool` fails with `Tool not found: <n>` exactly when no registered
tool has that name. -/
theorem C2_name_validation_amended :
    (∀ userTools : List ToolSpec,
      (createSandboxReg userTools).isOk = true ↔ (userTools.map (fun t => t.name)).Nodup) ∧
    (∀ userTools : List ToolSpec,
      ¬ (userTools.map (fun t => t.name)).Nodup →
      ∃ n ∈ userTools.map (fun t => t.name),
        createSandboxReg userTools = Except.error ("Duplicate tool name: " ++ n)) ∧
    (∀ (s : SandboxReg) (t : ToolSpec),
      sandboxAddTool s t = Except.error ("Duplicate tool name: " ++ t.name)
        ↔ t.name ∈ s.tools.map (fun u => u.name)) ∧
    (∀ (s : SandboxReg) (n : String),
      sandboxRemoveTool s n = Except.error ("Tool not found: " ++ n)
        ↔ n ∉ s.tools.map (fun u => u.name)) := by
  refine ⟨?_, ?_, ?_, ?_⟩
  · intro userTools
    unfold createSandboxReg
    cases h : findFirstDuplicate (userTools.map (fun t => t.name)) [] with
    | none =>
      have := (findFirstDuplicate_eq_none (userTools.map (fun t => t.name)) []).mp h
      simp [Except.isOk, Except.toBool, this.1]
    | some n =>
      have hnd : ¬ (userTools.map (fun t => t.name)).Nodup := by
        intro hnd
        have : findFirstDuplicate (userTools.map (fun t => t.name)) [] = none :=
          (findFirstDuplicate_eq_none _ []).mpr ⟨hnd, by simp⟩
        rw [this] at h
        cases h
      simp [Except.isOk, Except.toBool, hnd]
  · intro userTools hdup
    cases h : findFirstDuplicate (userTools.map (fun t => t.name)) [] with
    | none =>
      exact absurd ((findFirstDuplicate_eq_none _ []).mp h).1 hdup
    | some n =>
      refine ⟨n, findFirstDuplicate_mem _ [] n h, ?_⟩
      unfold createSandboxReg
      rw [h]
  · intro s t
    unfold sandboxAddTool
    by_cases hmem : t.name ∈ s.tools.map (fun u => u.name)
    · have hany : s.tools.any (fun u => u.name = t.name) = true := by
        rw [List.any_eq_true]
        obtain ⟨u, hu, hname⟩ := List.mem_map.mp hmem
        exact ⟨u, hu, by simp [hname]⟩
      simp [hany, hmem]
    · have hany : s.tools.any (fun u => u.name = t.name) = false := by
        rw [List.any_eq_false]
        intro u hu
        simp only [decide_eq_true_eq]
        intro hname
        exact hmem (List.mem_map.mpr ⟨u, hu, hname⟩)
      simp [hany, hmem]
  · intro s n
    unfold sandboxRemoveTool
    by_cases hmem : n ∈ s.tools.map (fun u => u.name)
    · have : s.tools.findIdx? (fun t => t.name = n) ≠ none := by
        intro hnone
        rw [List.findIdx?_eq_none_iff] at hnone
        obtain ⟨u, hu, hname⟩ := List.mem_map.mp hmem
        have := hnone u hu
        simp [hname] at this
      cases hidx : s.tools.findIdx? (fun t => t.name = n) with
      | none => exact absurd hidx this
      | some i => simp [hidx, hmem]
    · have hidx : s.tools.findIdx? (fun t => t.name = n) = none := by
        rw [List.findIdx?_eq_none_iff]
        intro u hu
        simp only [decide_eq_false_iff_not]
        intro hname
        exact hmem (List.mem_map.mpr ⟨u, hu, hname⟩)
      simp [hidx, hmem]

/-- C2 amended, applied at concrete inputs: two supplied tools named `dup`
are rejected with the exact message; `addTool` of a second `sleep` on a
fresh sandbox is rejected; `removeTool` of an unregistered name fails. -/
theorem C2_name_validation_amended_witness :
    (∃ n ∈ ([⟨"dup", "a"⟩, ⟨"dup", "b"⟩] : List ToolSpec).map (fun t => t.name),
      createSandboxReg [⟨"dup", "a"⟩, ⟨"dup", "b"⟩]
        = Except.error ("Duplicate tool name: " ++ n)) ∧
    sandboxAddTool ⟨builtinTools, generateExecuteDescription builtinNames⟩ ⟨"sleep", "again"⟩
      = Except.error "Duplicate tool name: sleep" ∧
    sandboxRemoveTool ⟨builtinTools, generateExecuteDescription builtinNames⟩ "nonexistent"
      = Except.error "Tool not found: nonexistent" :=
  ⟨C2_name_validation_amended.2.1 [⟨"dup", "a"⟩, ⟨"dup", "b"⟩] (by decide),
   C2_name_validation_amended.2.2.1 ⟨builtinTools, generateExecuteDescription builtinNames⟩
     ⟨"sleep", "again"⟩ |>.mpr (by decide),
   C2_name_validation_amended.2.2.2 ⟨builtinTools, generateExecuteDescription builtinNames⟩
     "nonexistent" |>.mpr (by decide)⟩

/-- The description template determines the interpolated name-list text:
equal descriptions can only come from equal `join(', ')` texts. -/
theorem generateExecuteDescription_names_inj (xs ys : List String)
    (h : generateExecuteDescription xs = generateExecuteDescription ys) :
    String.intercalate ", " xs = String.intercalate ", " ys := by
  unfold generateExecuteDescription at h
  have h2 := congrArg String.data h
  simp only [String.data_append] at h2
  exact String.ext (List.append_cancel_left (List.append_cancel_right h2))

/-- C9 counterexample: the claim says the execute description embeds the
*sorted* comma-separated tool names.  With user tools `zeta`, `alpha` the
source renders `toolNames.join(', ')` in registry order —
`zeta, alpha, describe_tool, list_tools, sleep, get_blob` — which is not
the sorted order, and the rendered description differs from the template
applied to the sorted name list
`alpha, describe_tool, get_blob, list_tools, sleep, zeta`. -/
theorem C9_counterexample :
    createSandboxReg [⟨"zeta", "z"⟩, ⟨"alpha", "a"⟩]
      = Except.ok ⟨[⟨"zeta", "z"⟩, ⟨"alpha", "a"⟩] ++ builtinTools,
          generateExecuteDescription
            ["zeta", "alpha", "describe_tool", "list_tools", "sleep", "get_blob"]⟩ ∧
    (["zeta", "alpha", "describe_tool", "list_tools", "sleep", "get_blob"] : List String)
      ≠ ["alpha", "describe_tool", "get_blob", "list_tools", "sleep", "zeta"] ∧
    generateExecuteDescription ["zeta", "alpha", "describe_tool", "list_tools", "sleep", "get_blob"]
      ≠ generateExecuteDescription ["alpha", "describe_tool", "get_blob", "list_tools", "sleep", "zeta"] := by
  refine ⟨rfl, by decide, fun h => ?_⟩
  have := generateExecuteDescription_names_inj _ _ h
  exact absurd this (by decide)

/-- C9 (amended): the execute tool's description embeds the
comma-separated names of all currently registered tools in registry order
(user tools in the order supplied, then the built-ins; `addTool` appends)
— not sorted — and it is recomputed from the current tool list at
construction and on every `addTool`/`removeTool`. -/
theorem C9_description_amended :
    (∀ (userTools : List ToolSpec) (s : SandboxReg),
      createSandboxReg userTools = Except.ok s →
      s.tools = userTools ++ builtinTools ∧
      s.executeDescription = generateExecuteDescription (s.tools.map (fun t => t.name))) ∧
    (∀ (s : SandboxReg) (t : ToolSpec) (s' : SandboxReg),
      sandboxAddTool s t = Except.ok s' →
      s'.tools = s.tools ++ [t] ∧
      s'.executeDescription = generateExecuteDescription (s'.tools.map (fun u => u.name))) ∧
    (∀ (s : SandboxReg) (n : String) (s' : SandboxReg),
      sandboxRemoveTool s n = Except.ok s' →
      s'.executeDescription = generateExecuteDescription (s'.tools.map (fun u => u.name))) := by
  refine ⟨?_, ?_, ?_⟩
  · intro userTools s h
    unfold createSandboxReg at h
    cases hdup : findFirstDuplicate (userTools.map (fun t => t.name)) [] with
    | none =>
      rw [hdup] at h
      have := Except.ok.inj h
      rw [← this]
      exact ⟨rfl, rfl⟩
    | some n =>
      rw [hdup] at h
      cases h
  · intro s t s' h
    unfold sandboxAddTool at h
    by_cases hany : s.tools.any (fun u => u.name = t.name)
    · rw [if_pos hany] at h
      cases h
    · rw [if_neg hany] at h
      have := Except.ok.inj h
      rw [← this]
      exact ⟨rfl, rfl⟩
  · intro s n s' h
    unfold sandboxRemoveTool at h
    cases hidx : s.tools.findIdx? (fun t => t.name = n) with
    | none =>
      rw [hidx] at h
      cases h
    | some i =>
      rw [hidx] at h
      have := Except.ok.inj h
      rw [← this]

/-- C9 amended, applied at a concrete input: adding a tool `add` to a
fresh sandbox leaves the description equal to the template over the new
registry-order name list. -/
theorem C9_description_amended_witness :
    (⟨builtinTools ++ [⟨"add", "Add two numbers"⟩],
      generateExecuteDescription
        ["describe_tool", "list_tools", "sleep", "get_blob", "add"]⟩ : SandboxReg).tools
      = builtinTools ++ [⟨"add", "Add two numbers"⟩] ∧
    (⟨builtinTools ++ [⟨"add", "Add two numbers"⟩],
      generateExecuteDescription
        ["describe_tool", "list_tools", "sleep", "get_blob", "add"]⟩ : SandboxReg).executeDescription
      = generateExecuteDescription
          (((⟨builtinTools ++ [⟨"add", "Add two numbers"⟩],
            generateExecuteDescription
              ["describe_tool", "list_tools", "sleep", "get_blob", "add"]⟩ : SandboxReg)).tools.map
              (fun u => u.name)) :=
  C9_description_amended.2.1
    ⟨builtinTools, generateExecuteDescription builtinNames⟩
    ⟨"add", "Add two numbers"⟩ _ rfl

/-- C4: a tool whose handler rejects with message `m`, combined with an
error-callback that sets `result = R`, is guest-observationally identical
to a tool whose handler successfully returns `R` (under the same
callbacks, with no result-mutating success callback): the guest promise
resolves — never rejects — with `R` after blob extraction, and the blob
table and id stream advance identically. -/
theorem C4_recovery_equivalence (rand : Nat → Fin 36) (cb : Callbacks)
    (toolName : String) (args mutatedArgs : Json) (m : String) (R : JsVal)
    (failing : ToolHandler) (table : List (String × Blob)) (k : Nat)
    (hbefore : applyBefore cb toolName args = .ok (mutatedArgs, none))
    (hsuccess : cb.onToolCallSuccess = none)
    (hfail : failing mutatedArgs = .error m)
    (hrecover : applyError cb toolName args m = some R) :
    runToolCall rand (some failing) cb toolName args table k
      = runToolCall rand (some (fun _ => Except.ok R)) cb toolName args table k ∧
    (runToolCall rand (some failing) cb toolName args table k).1
      = GuestSettlement.resolve (extractBlobsJs rand R table k).1 := by
  unfold runToolCall
  rw [hbefore]
  constructor
  · simp only [hfail, hrecover, applySuccess, hsuccess]
  · simp only [hfail, hrecover, applySuccess, hsuccess]

/-- C4 applied at concrete inputs: a handler that throws `boom` with an
error-callback recovering to the string `recovered` behaves exactly like
a handler returning `recovered`, and the guest promise resolves with it. -/
theorem C4_recovery_equivalence_witness :
    runToolCall (fun _ => (0 : Fin 36)) (some (fun _ => Except.error "boom"))
        ⟨none, none, some (fun _ _ _ => some (JsVal.val (Json.str "recovered")))⟩
        "flaky" (Json.obj []) [] 0
      = runToolCall (fun _ => (0 : Fin 36))
          (some (fun _ => Except.ok (JsVal.val (Json.str "recovered"))))
          ⟨none, none, some (fun _ _ _ => some (JsVal.val (Json.str "recovered")))⟩
          "flaky" (Json.obj []) [] 0 ∧
    (runToolCall (fun _ => (0 : Fin 36)) (some (fun _ => Except.error "boom"))
        ⟨none, none, some (fun _ _ _ => some (JsVal.val (Json.str "recovered")))⟩
        "flaky" (Json.obj []) [] 0).1
      = GuestSettlement.resolve
          (extractBlobsJs (fun _ => (0 : Fin 36)) (JsVal.val (Json.str "recovered")) [] 0).1 :=
  C4_recovery_equivalence (fun _ => (0 : Fin 36))
    ⟨none, none, some (fun _ _ _ => some (JsVal.val (Json.str "recovered")))⟩
    "flaky" (Json.obj []) (Json.obj []) "boom" (JsVal.val (Json.str "recovered"))
    (fun _ => Except.error "boom") [] 0 rfl rfl rfl rfl

/-- `Map.set` keeps the table's keys pairwise distinct (a `Map` cannot
hold two entries with one key): overwriting keeps the key set, appending
adds a key that was absent. -/
theorem keys_mapSet (table : List (String × Blob)) (id : String) (b : Blob)
    (h : (table.map (fun p => p.1)).Nodup) :
    ((mapSet table id b).map (fun p => p.1)).Nodup := by
  unfold mapSet
  by_cases hany : table.any (fun p => p.1 = id)
  · rw [if_pos hany]
    have hkeys : (table.map (fun p => if p.1 = id then (id, b) else p)).map (fun p => p.1)
        = table.map (fun p => p.1) := by
      rw [List.map_map]
      apply List.map_congr_left
      intro p _
      by_cases hp : p.1 = id <;> simp [hp]
    rw [hkeys]
    exact h
  · rw [if_neg hany]
    rw [List.map_append]
    have hid : id ∉ table.map (fun p => p.1) := by
      intro hmem
      obtain ⟨p, hp, hpid⟩ := List.mem_map.mp hmem
      have := List.any_eq_false.mp (Bool.eq_false_iff.mpr hany) p hp
      simp [hpid] at this
    simp [List.nodup_append, h, hid]

/-- Every id produced by `generateBlobId` is `blob_` followed by exactly
six characters of the lower-alphanumeric alphabet. -/
theorem generateBlobId_format (rand : Nat → Fin 36) (k : Nat) :
    ∃ suffix : String, generateBlobId rand k = "blob_" ++ suffix ∧
      suffix.length = 6 ∧ ∀ c ∈ suffix.toList, c ∈ blobChars := by
  refine ⟨String.mk ((List.range 6).map (fun i =>
    blobChars.getD (rand (k + i)).val 'a')), rfl, ?_, ?_⟩
  · simp [String.length]
  · intro c hc
    simp only [String.toList] at hc
    obtain ⟨i, -, rfl⟩ := List.mem_map.mp hc
    have hlt : (rand (k + i)).val < blobChars.length := by
      have h36 : blobChars.length = 36 := by decide
      rw [h36]
      exact (rand (k + i)).isLt
    rw [List.getD_eq_getElem blobChars 'a' hlt]
    exact List.getElem_mem hlt

/-- Blob-table keys stay pairwise distinct through `extractBlobs` (every
insertion goes through `Map.set`). -/
theorem extractBlobs_keys_nodup (rand : Nat → Fin 36) :
    ∀ (v : Json) (table : List (String × Blob)) (k : Nat),
      (table.map (fun p => p.1)).Nodup →
      (((extractBlobs rand v table k).2.1).map (fun p => p.1)).Nodup := by
  intro v0 table0 k0
  refine extractBlobs.induct rand
    (fun v table k => (table.map (fun p => p.1)).Nodup →
      (((extractBlobs rand v table k).2.1).map (fun p => p.1)).Nodup)
    (fun fs table k => (table.map (fun p => p.1)).Nodup →
      (((extractBlobsFields rand fs table k).2.1).map (fun p => p.1)).Nodup)
    (fun vs table k => (table.map (fun p => p.1)).Nodup →
      (((extractBlobsList rand vs table k).2.1).map (fun p => p.1)).Nodup)
    ?_ ?_ ?_ ?_ ?_ ?_ ?_ ?_ ?_ v0 table0 k0
  · intro table k elems ih h
    simp only [extractBlobs]
    exact ih h
  · intro table k fields d m hshape h
    simp only [extractBlobs, hshape]
    exact keys_mapSet table _ _ h
  · intro table k fields himg d m hshape h
    simp only [extractBlobs, himg, hshape]
    exact keys_mapSet table _ _ h
  · intro table k fields himg hres ih h
    simp only [extractBlobs, himg, hres]
    exact ih h
  · intro table k other hna hno h
    cases other with
    | arr es => exact absurd rfl (hna es)
    | obj fs => exact absurd rfl (hno fs)
    | null => simpa [extractBlobs] using h
    | bool b => simpa [extractBlobs] using h
    | num n => simpa [extractBlobs] using h
    | str s => simpa [extractBlobs] using h
  · intro table k h
    simpa [extractBlobsList] using h
  · intro table k x xs r ih1 ih2 h
    simp only [extractBlobsList]
    exact ih2 (ih1 h)
  · intro table k h
    simpa [extractBlobsFields] using h
  · intro table k key v fs r ih1 ih2 h
    simp only [extractBlobsFields]
    exact ih2 (ih1 h)

/-- C6 counterexample: the claim says id generation retries on collision,
so lifting the same payload twice in one execution yields two distinct
ids.  `generateBlobId` has no collision check: under a random stream that
repeats (all draws 0), lifting the same image payload twice produces the
*same* id `blob_aaaaaa` for both refs, and the second `blobStore.set`
overwrites the first — the table ends with a single entry for two lifted
payloads. -/
theorem C6_counterexample :
    (extractBlobs (fun _ => (0 : Fin 36))
        (Json.arr
          [Json.obj [("type", .str "image"), ("data", .str "AAA"), ("mimeType", .str "image/png")],
           Json.obj [("type", .str "image"), ("data", .str "AAA"), ("mimeType", .str "image/png")]])
        [] 0).1
      = Json.arr [blobRef "blob_aaaaaa" "image/png", blobRef "blob_aaaaaa" "image/png"] ∧
    (extractBlobs (fun _ => (0 : Fin 36))
        (Json.arr
          [Json.obj [("type", .str "image"), ("data", .str "AAA"), ("mimeType", .str "image/png")],
           Json.obj [("type", .str "image"), ("data", .str "AAA"), ("mimeType", .str "image/png")]])
        [] 0).2.1
      = [("blob_aaaaaa", ⟨"blob_aaaaaa", "AAA", "image/png"⟩)] :=
  ⟨rfl, rfl⟩

/-- C6 (amended): every generated blob id is `blob_` followed by exactly
six characters from `[a-z0-9]`, and the blob table's ids stay pairwise
distinct because it is a map — but there is no collision retry: ids come
straight from the random stream, and when a later lift draws an id equal
to an earlier one, `Map.set` overwrites the earlier blob, so lifting the
same payload twice yields distinct ids only when the random draws differ. -/
theorem C6_blob_id_amended :
    (∀ (rand : Nat → Fin 36) (k : Nat),
      ∃ suffix : String, generateBlobId rand k = "blob_" ++ suffix ∧
        suffix.length = 6 ∧ ∀ c ∈ suffix.toList, c ∈ blobChars) ∧
    (∀ (rand : Nat → Fin 36) (v : Json) (table : List (String × Blob)) (k : Nat),
      (table.map (fun p => p.1)).Nodup →
      (((extractBlobs rand v table k).2.1).map (fun p => p.1)).Nodup) :=
  ⟨generateBlobId_format, extractBlobs_keys_nodup⟩

/-- C6 amended, applied at concrete inputs: the id generated from an
all-zero stream is `blob_` + `aaaaaa` (six alphabet characters), and
extracting two image payloads from an empty table leaves distinct keys. -/
theorem C6_blob_id_amended_witness :
    (∃ suffix : String, generateBlobId (fun _ => (0 : Fin 36)) 0 = "blob_" ++ suffix ∧
      suffix.length = 6 ∧ ∀ c ∈ suffix.toList, c ∈ blobChars) ∧
    (((extractBlobs (fun _ => (0 : Fin 36))
        (Json.obj [("type", .str "image"), ("data", .str "AAA"), ("mimeType", .str "image/png")])
        [] 0).2.1).map (fun p => p.1)).Nodup :=
  ⟨C6_blob_id_amended.1 (fun _ => (0 : Fin 36)) 0,
   C6_blob_id_amended.2 (fun _ => (0 : Fin 36))
     (Json.obj [("type", .str "image"), ("data", .str "AAA"), ("mimeType", .str "image/png")])
     [] 0 List.nodup_nil⟩

theorem heapExtends_refl (h : Heap) : heapExtends h h := fun _ _ hao => hao

theorem heapExtends_trans {h1 h2 h3 : Heap}
    (h12 : heapExtends h1 h2) (h23 : heapExtends h2 h3) : heapExtends h1 h3 :=
  fun a o hao => h23 a o (h12 a o hao)

/-- Allocation never disturbs an existing entry: the fresh cell is
appended after every live one, and lookup takes the first match. -/
theorem heapExtends_alloc (h : Heap) (o : HObj) : heapExtends h (h.alloc o).1 := by
  intro a ob hao
  unfold Heap.lookup at hao ⊢
  unfold Heap.alloc
  cases hf : h.entries.find? (fun p => p.1 = a) with
  | none => rw [hf] at hao; cases hao
  | some p =>
    rw [hf] at hao
    rw [List.find?_append, hf]
    exact hao

/-- The heap-level extractor only allocates: every pre-existing heap
object is intact in the output heap (lemma form, all three mutual
functions at once). -/
theorem extractBlobsH_extends (rand : Nat → Fin 36) :
    ∀ (fuel : Nat) (v : HVal) (h : Heap) (table : List (String × Blob)) (k : Nat)
      (v' : HVal) (h' : Heap) (table' : List (String × Blob)) (k' : Nat),
      extractBlobsH rand fuel v h table k = some (v', h', table', k') →
      heapExtends h h' := by
  intro fuel0 v0 h0 table0 k0
  have main := extractBlobsH.induct rand
    (fun fuel v h table k => ∀ v' h' table' k',
      extractBlobsH rand fuel v h table k = some (v', h', table', k') → heapExtends h h')
    (fun fuel fs h table k => ∀ fs' h' table' k',
      extractBlobsHFields rand fuel fs h table k = some (fs', h', table', k') → heapExtends h h')
    (fun fuel vs h table k => ∀ vs' h' table' k',
      extractBlobsHList rand fuel vs h table k = some (vs', h', table', k') → heapExtends h h')
    ?_ ?_ ?_ ?_ ?_ ?_ ?_ ?_ ?_ ?_ ?_ ?_ ?_ ?_ ?_ ?_ ?_ fuel0 v0 h0 table0 k0
  · exact main
  · intro v h table k v' h' table' k' heq
    simp [extractBlobsH] at heq
  · intro fuel h table k a hlook v' h' table' k' heq
    simp [extractBlobsH, hlook] at heq
  · intro fuel h table k a elems hlook hlist ih v' h' table' k' heq
    simp [extractBlobsH, hlook, hlist] at heq
  · intro fuel h table k a elems hlook elems' hmid tablemid kmid hlist ih v' h' table' k' heq
    simp only [extractBlobsH, hlook, hlist, Option.some.injEq, Prod.mk.injEq] at heq
    obtain ⟨-, rfl, -, -⟩ := heq
    exact heapExtends_trans (ih _ _ _ _ hlist) (heapExtends_alloc hmid _)
  · intro fuel h table k a props hlook b m hshape v' h' table' k' heq
    simp only [extractBlobsH, hlook, hshape, Option.some.injEq, Prod.mk.injEq] at heq
    obtain ⟨-, rfl, -, -⟩ := heq
    exact heapExtends_alloc h _
  · intro fuel h table k a props hlook himg b m hshape v' h' table' k' heq
    simp only [extractBlobsH, hlook, himg, hshape, Option.some.injEq, Prod.mk.injEq] at heq
    obtain ⟨-, rfl, -, -⟩ := heq
    exact heapExtends_alloc h _
  · intro fuel h table k a props hlook himg hres hfields ih v' h' table' k' heq
    simp [extractBlobsH, hlook, himg, hres, hfields] at heq
  · intro fuel h table k a props hlook himg hres props' hmid tablemid kmid hfields ih
      v' h' table' k' heq
    simp only [extractBlobsH, hlook, himg, hres, hfields, Option.some.injEq, Prod.mk.injEq] at heq
    obtain ⟨-, rfl, -, -⟩ := heq
    exact heapExtends_trans (ih _ _ _ _ hfields) (heapExtends_alloc hmid _)
  · intro fuel h table k prim hnotaddr v' h' table' k' heq
    cases prim with
    | addr a => exact absurd rfl (hnotaddr a)
    | null =>
      simp only [extractBlobsH, Option.some.injEq, Prod.mk.injEq] at heq
      obtain ⟨-, rfl, -, -⟩ := heq
      exact heapExtends_refl h
    | bool b =>
      simp only [extractBlobsH, Option.some.injEq, Prod.mk.injEq] at heq
      obtain ⟨-, rfl, -, -⟩ := heq
      exact heapExtends_refl h
    | num n =>
      simp only [extractBlobsH, Option.some.injEq, Prod.mk.injEq] at heq
      obtain ⟨-, rfl, -, -⟩ := heq
      exact heapExtends_refl h
    | str s =>
      simp only [extractBlobsH, Option.some.injEq, Prod.mk.injEq] at heq
      obtain ⟨-, rfl, -, -⟩ := heq
      exact heapExtends_refl h
  · intro fuel h table k fs' h' table' k' heq
    simp only [extractBlobsHFields, Option.some.injEq, Prod.mk.injEq] at heq
    obtain ⟨-, rfl, -, -⟩ := heq
    exact heapExtends_refl h
  · intro fuel key x xs h table k hx ih fs' h' table' k' heq
    simp [extractBlobsHFields, hx] at heq
  · intro fuel key x xs h table k x' hmid tablemid kmid hx hrest ih1 ih2 fs' h' table' k' heq
    simp [extractBlobsHFields, hx, hrest] at heq
  · intro fuel key x xs h table k x' hmid tablemid kmid hx props' hfin tablefin kfin hrest
      ih1 ih2 fs' h' table' k' heq
    simp only [extractBlobsHFields, hx, hrest, Option.some.injEq, Prod.mk.injEq] at heq
    obtain ⟨-, rfl, -, -⟩ := heq
    exact heapExtends_trans (ih1 _ _ _ _ hx) (ih2 _ _ _ _ hrest)
  · intro fuel h table k vs' h' table' k' heq
    simp only [extractBlobsHList, Option.some.injEq, Prod.mk.injEq] at heq
    obtain ⟨-, rfl, -, -⟩ := heq
    exact heapExtends_refl h
  · intro fuel x xs h table k hx ih vs' h' table' k' heq
    simp [extractBlobsHList, hx] at heq
  · intro fuel x xs h table k x' hmid tablemid kmid hx hrest ih1 ih2 vs' h' table' k' heq
    simp [extractBlobsHList, hx, hrest] at heq
  · intro fuel x xs h table k x' hmid tablemid kmid hx elems' hfin tablefin kfin hrest
      ih1 ih2 vs' h' table' k' heq
    simp only [extractBlobsHList, hx, hrest, Option.some.injEq, Prod.mk.injEq] at heq
    obtain ⟨-, rfl, -, -⟩ := heq
    exact heapExtends_trans (ih1 _ _ _ _ hx) (ih2 _ _ _ _ hrest)

/-- C10: the blob extractor never mutates its input.  In the mutable-heap
model, `extractBlobsH` reads the argument through `Heap.lookup` and
writes only through `Heap.alloc`; consequently, after any terminating
run, every object of the input heap — so in particular the argument value
and all of its nested objects and arrays — is still present, unchanged,
at its address. -/
theorem C10_extractor_no_mutation (rand : Nat → Fin 36) (fuel : Nat) (v : HVal) (h : Heap)
    (table : List (String × Blob)) (k : Nat)
    (v' : HVal) (h' : Heap) (table' : List (String × Blob)) (k' : Nat)
    (hrun : extractBlobsH rand fuel v h table k = some (v', h', table', k'))
    (a : Nat) (o : HObj) (hao : h.lookup a = some o) :
    h'.lookup a = some o :=
  extractBlobsH_extends rand fuel v h table k v' h' table' k' hrun a o hao

/-- C10 applied at a concrete input: extracting over the one-object heap
`{x: 1}` (address 0) allocates the rebuilt object at address 1 and leaves
the input object at address 0 unchanged. -/
theorem C10_extractor_no_mutation_witness :
    (⟨[(0, HObj.obj [("x", HVal.num 1)]), (1, HObj.obj [("x", HVal.num 1)])], 2⟩ : Heap).lookup 0
      = some (HObj.obj [("x", HVal.num 1)]) :=
  C10_extractor_no_mutation (fun _ => (0 : Fin 36)) 2 (HVal.addr 0)
    ⟨[(0, HObj.obj [("x", HVal.num 1)])], 1⟩ [] 0
    (HVal.addr 1) ⟨[(0, HObj.obj [("x", HVal.num 1)]), (1, HObj.obj [("x", HVal.num 1)])], 2⟩ [] 0
    (by simp [extractBlobsH, extractBlobsHFields, Heap.lookup, Heap.alloc,
      imageAudioShapeH, resourceBlobShapeH, getPropH, List.find?])
    0 (HObj.obj [("x", HVal.num 1)]) rfl
